import Mathlib

/-!
# Verification of `dmcr` (DIMACS model checker) from the `splr` repository

This file gives a shallow embedding of `src/bin/dmcr.rs` — the DIMACS
model-checker driver — and proves properties of its assignment parser
(`read_assignment`) and of the driver control flow in `main`.

Lines of the input stream are modelled as `List Char` (the contents that
Rust's `read_line` places into `buf`, trailing newline included when one is
present).  A stream is a `List (List Char)`.  Machine integers (`i32`) are
modelled as `Int` with the explicit range check that `str::parse::<i32>`
performs.

The clause database, `inject_assignment` and `validate` live in the `splr`
library, whose source is not part of `src/`; those are modelled from the
specification (see the doc comments on `injectAssignment` and `validate`).
-/

namespace Dmcr

/-- Characters of a string literal. -/
def strL (s : String) : List Char := s.data

/-- `leadsWith pat l` : `pat` is a leading segment of `l`
(Rust's `str::starts_with` on string patterns). -/
def leadsWith : List Char → List Char → Bool
  | [], _ => true
  | _ :: _, [] => false
  | a :: as, b :: bs => a == b && leadsWith as bs

/-- Rust's `str::strip_prefix`: drop `pat` from the front of `l` when it leads. -/
def stripLead (pat l : List Char) : Option (List Char) :=
  if leadsWith pat l then some (l.drop pat.length) else none

/-- Numeric value of a digit string (no sign). -/
def digitsToNat (ds : List Char) : Nat :=
  ds.foldl (fun a c => a * 10 + (c.toNat - 48)) 0

/-- Rust's `str::parse::<i32>`: optional sign, one or more decimal digits,
value must fit in `i32`.  Returns `none` exactly when Rust returns `Err`. -/
def parseI32 (t : List Char) : Option Int :=
  let core : Int → List Char → Option Int := fun sign ds =>
    if ds.isEmpty then none
    else if ds.all Char.isDigit then
      let v : Int := sign * (digitsToNat ds : Int)
      if -2147483648 ≤ v ∧ v ≤ 2147483647 then some v else none
    else none
  match t with
  | [] => none
  | '-' :: ds => core (-1) ds
  | '+' :: ds => core 1 ds
  | ds => core 1 ds

/-- Result of parsing a token, with Rust's `unwrap_or`-style default `0`
(used only to state results; the parser itself never defaults). -/
def toIntD (t : List Char) : Int := (parseI32 t).getD 0

/-- `str::split_whitespace`: maximal runs of non-whitespace characters
(accumulator holds the current token reversed). -/
def splitWSAux : List Char → List Char → List (List Char)
  | [], cur => if cur.isEmpty then [] else [cur.reverse]
  | c :: cs, cur =>
    if c.isWhitespace then
      if cur.isEmpty then splitWSAux cs [] else cur.reverse :: splitWSAux cs []
    else splitWSAux cs (c :: cur)

/-- Whitespace-separated tokens of a line remainder. -/
def splitWS (l : List Char) : List (List Char) := splitWSAux l []

/-- Outcome of `read_assignment` (dmcr.rs lines 213–253).
`assignment v` is `Some(v)`, `unsatClaimed` and `illegalFormat` are the two
`return None` paths (each prints its message first), `parsePanic t` is the
`panic!("{} by {}", e, s)` on an unparsable `v`-line token `t`, and
`linePanic l` is `panic!("Failed to parse here: {}", buf)`. -/
inductive RAResult where
  | assignment : List Int → RAResult
  | unsatClaimed : RAResult
  | illegalFormat : RAResult
  | parsePanic : List Char → RAResult
  | linePanic : List Char → RAResult
deriving DecidableEq, Repr

/-- The `for s in stripped.split_whitespace()` loop of `read_assignment`
(dmcr.rs lines 238–245): `Ok(0)` breaks, `Ok(x)` pushes, `Err` panics with
the offending token. -/
def parseVTokens : List (List Char) → List Int → RAResult
  | [], acc => .assignment acc
  | t :: ts, acc =>
    match parseI32 t with
    | none => .parsePanic t
    | some x => if x = 0 then .assignment acc else parseVTokens ts (acc ++ [x])

/-- The tail of the per-line dispatch of `read_assignment` after the `c` and
`s ` branches (dmcr.rs lines 237–248): try `strip_prefix("v ")`, otherwise
`panic!("Failed to parse here: {}", buf)`. -/
def vLineStep (buf : List Char) : RAResult :=
  match stripLead (strL "v ") buf with
  | some stripped => parseVTokens (splitWS stripped) []
  | none => .linePanic buf

/-- `read_assignment` (dmcr.rs lines 213–253).  `assign` is the `&Option<PathBuf>`
argument.  `Ok(0)` (end of stream) returns `Some(Vec::new())`; a line whose
first character is `c` is skipped; an `s `-line is skipped when it claims
SATISFIABLE, ends the parse when it claims UNSATISFIABLE, is an illegal-format
error when `assign` is `Some`, and otherwise clears `buf` and falls through to
the `v `-check (panicking with the cleared, empty buffer). -/
def readAssignment : List (List Char) → Option (List Char) → RAResult
  | [], _ => .assignment []
  | buf :: rest, assign =>
    if buf.head? = some 'c' then readAssignment rest assign
    else if leadsWith (strL "s ") buf then
      if leadsWith (strL "s SATISFIABLE") buf then readAssignment rest assign
      else if leadsWith (strL "s UNSATISFIABLE") buf then .unsatClaimed
      else
        match assign with
        | some _ => .illegalFormat
        | none => vLineStep []
    else vLineStep buf

/-- A token parses to a nonzero `i32`. -/
def nzInt (t : List Char) : Bool :=
  match parseI32 t with
  | some x => x != 0
  | none => false

/-- Every token parses to a nonzero `i32` (decidable hypothesis form). -/
def allNonzeroInts (toks : List (List Char)) : Bool := toks.all nzInt

/-- Every token up to and including the first `0` parses to an `i32`. -/
def goodTokens : List (List Char) → Bool
  | [] => true
  | t :: ts =>
    match parseI32 t with
    | none => false
    | some x => if x = 0 then true else goodTokens ts

/-! ## Colors and output strings (dmcr.rs lines 14–17, 135–139, 150–210, 228, 231) -/

/-- `RED` (dmcr.rs line 14). -/
def RED : List Char := strL "\x1B[001m\x1B[031m"

/-- `GREEN` (dmcr.rs line 15). -/
def GREEN : List Char := strL "\x1B[001m\x1B[032m"

/-- `BLUE` (dmcr.rs line 16). -/
def BLUE : List Char := strL "\x1B[001m\x1B[034m"

/-- `RESET` (dmcr.rs line 17). -/
def RESET : List Char := strL "\x1B[000m"

/-- The `red` binding of `let (red, green, blue) = if args.no_color ...`
(dmcr.rs lines 135–139). -/
def redOf (noColor : Bool) : List Char := if noColor then RESET else RED

/-- The `green` binding (dmcr.rs lines 135–139). -/
def greenOf (noColor : Bool) : List Char := if noColor then RESET else GREEN

/-- The `blue` binding (dmcr.rs lines 135–139). -/
def blueOf (noColor : Bool) : List Char := if noColor then RESET else BLUE

/-- `"{}{} seems an unsat problem but no proof.{}"` with `blue`, the problem
path and `RESET` (dmcr.rs lines 153–159 and 170–176; the two sites format
identical strings). -/
def noProofMsg (noColor : Bool) (p : List Char) : List Char :=
  blueOf noColor ++ p ++ strL " seems an unsat problem but no proof." ++ RESET

/-- `"{} seems an unsatisfiable problem. I can't handle it."` (dmcr.rs line 228). -/
def unsatClaimedMsg (p : List Char) : List Char :=
  p ++ strL " seems an unsatisfiable problem. I can\x27t handle it."

/-- `"{} seems an illegal format file."` (dmcr.rs line 231). -/
def illegalFormatMsg (apath : List Char) : List Char :=
  apath ++ strL " seems an illegal format file."

/-- `"There's no assign file."` (dmcr.rs line 186). -/
def noAssignMsg : List Char := strL "There\x27s no assign file."

/-- `"{}An invalid assignment set for {}{} due to {:?}."` with `red`, the
problem path, `RESET` and the clause's debug rendering (dmcr.rs lines 190–196). -/
def invalidMsg (noColor : Bool) (p cdbg : List Char) : List Char :=
  redOf noColor ++ strL "An invalid assignment set for " ++ p ++ RESET ++
    strL " due to " ++ cdbg ++ strL "."

/-- `"{}A valid assignment set for {}{} is found in {}"` with `green`, problem,
`RESET` and the assignment path (dmcr.rs lines 197–203). -/
def validFileMsg (noColor : Bool) (p apath : List Char) : List Char :=
  greenOf noColor ++ strL "A valid assignment set for " ++ p ++ RESET ++
    strL " is found in " ++ apath

/-- `"{}A valid assignment set for {}.{}"` with `green`, problem and `RESET`
(dmcr.rs lines 204–209). -/
def validStdinMsg (noColor : Bool) (p : List Char) : List Char :=
  greenOf noColor ++ strL "A valid assignment set for " ++ p ++ strL "." ++ RESET

/-! ## ANSI SGR detection -/

/-- Whether an `'m'` occurs anywhere in the list (the terminator byte of an
SGR sequence). -/
def seeksM : List Char → Bool
  | [] => false
  | c :: r => c == 'm' || seeksM r

/-- Whether the byte string contains a subsequence of the form `ESC [ … m`. -/
def containsSGR : List Char → Bool
  | [] => false
  | c :: rest =>
    (c == '\x1B' &&
      (match rest with
       | b :: r => b == '[' && seeksM r
       | [] => false)) || containsSGR rest

/-- Every `ESC` in the byte string starts the literal reset sequence
`ESC [ 0 0 0 m` (dmcr.rs `RESET`). -/
def onlyResetSGR : List Char → Bool
  | [] => true
  | c :: rest =>
    if c == '\x1B' then leadsWith (strL "[000m") rest && onlyResetSGR rest
    else onlyResetSGR rest

/-! ## The splr interface, modelled from the spec -/

/-- A clause: a finite sequence of literals (spec §3). -/
abbrev Clause := List Int

/-- A problem: its clause database (spec §3). -/
abbrev Problem := List Clause

/-- Modelled from the spec: whether a clause is a unit clause falsified by
the injected literals (spec §4.3: "If any unit clause in the problem, under
the in-progress assignment, would be falsified, signal Conflict"). -/
def unitFalsified (lits : List Int) : Clause → Bool
  | [l] => lits.contains (-l)
  | _ => false

/-- Modelled from the spec: `splr`'s `SatSolverIF::inject_assignment`, whose
source is not under `src/`.  Per spec §4.3, §5 and §6 it returns `Err`
(modelled as `true`) exactly when the literals are self-contradictory or
falsify a unit clause of the problem. -/
def injectAssignment (P : Problem) (lits : List Int) : Bool :=
  lits.any (fun l => lits.contains (-l)) || P.any (unitFalsified lits)

/-- Modelled from the spec: `splr`'s `ValidateIF::validate`, whose source is
not under `src/`.  Per spec §4.4 it returns the first clause in storage order
with no literal satisfied by the bound assignment, or `None`. -/
def validate (P : Problem) (lits : List Int) : Option Clause :=
  P.find? fun c => !(c.any fun l => lits.contains l)

/-! ## The driver (`main`, dmcr.rs lines 123–211) -/

/-- What the driver did: the lines printed to standard output, whether
`inject_assignment` was invoked, whether `validate` was invoked, and whether
the process panicked (inside `read_assignment`). -/
structure DriverOut where
  output : List (List Char)
  injectCalled : Bool
  validateCalled : Bool
  panicked : Bool
deriving DecidableEq, Repr

/-- The verdict line printed by `match s.validate()` (dmcr.rs lines 189–210).
`dbg` models the `{:?}` debug rendering of a `splr` clause (code not under
`src/`). -/
def renderVerdict (noColor : Bool) (p apath : List Char) (dbg : Clause → List Char)
    (fromFile : Bool) (r : Option Clause) : List Char :=
  match r with
  | some c => invalidMsg noColor p (dbg c)
  | none => if fromFile then validFileMsg noColor p apath else validStdinMsg noColor p

/-- dmcr.rs lines 185–210: the `if !found` check followed by the
`match s.validate()` verdict.  Reached only after a successful
`inject_assignment`, with `found` as set by the preceding branches. -/
def mainTail (noColor : Bool) (p apath : List Char) (P : Problem)
    (dbg : Clause → List Char) (fromFile found : Bool) (vec : List Int) : DriverOut :=
  if !found then
    { output := [noAssignMsg], injectCalled := true, validateCalled := false,
      panicked := false }
  else
    { output := [renderVerdict noColor p apath dbg fromFile (validate P vec)],
      injectCalled := true, validateCalled := true, panicked := false }

/-- Handling of one `read_assignment` result by `main` (dmcr.rs lines
150–184): on `Some(vec)`, inject and either print the no-proof message or
set `found` and continue; on `None`, return (the parser already printed its
message); on a panic the process aborts with nothing further on stdout. -/
def handleStream (noColor : Bool) (p apath : List Char) (P : Problem)
    (dbg : Clause → List Char) (fromFile : Bool) (r : RAResult) : DriverOut :=
  match r with
  | .assignment vec =>
    if injectAssignment P vec then
      { output := [noProofMsg noColor p], injectCalled := true,
        validateCalled := false, panicked := false }
    else mainTail noColor p apath P dbg fromFile true vec
  | .unsatClaimed =>
    { output := [unsatClaimedMsg p], injectCalled := false,
      validateCalled := false, panicked := false }
  | .illegalFormat =>
    { output := [illegalFormatMsg apath], injectCalled := false,
      validateCalled := false, panicked := false }
  | .parsePanic _ =>
    { output := [], injectCalled := false, validateCalled := false, panicked := true }
  | .linePanic _ =>
    { output := [], injectCalled := false, validateCalled := false, panicked := true }

/-- `main` from the point the assignment source is chosen (dmcr.rs lines
150–211).  `fileStream = some ls` models a successful `File::open` of the
assignment path; `none` models falling back to standard input.  By lines
141–149 `args.assign` is always `Some` here, so `read_assignment` receives
`some apath`. -/
def mainModel (noColor : Bool) (p apath : List Char) (P : Problem)
    (dbg : Clause → List Char) (fileStream : Option (List (List Char)))
    (stdinStream : List (List Char)) : DriverOut :=
  match fileStream with
  | some ls => handleStream noColor p apath P dbg true (readAssignment ls (some apath))
  | none => handleStream noColor p apath P dbg false (readAssignment stdinStream (some apath))

/-- Transcription of claim C1's words (not of the source): "the sequence of
all non-zero integer tokens appearing on the `v`-lines of the stream, up to
the first `0` token".  Used only to compare the claimed value against the
embedded `readAssignment`. -/
def claimedLiterals (lines : List (List Char)) : List Int :=
  ((((lines.filterMap (stripLead (strL "v "))).map splitWS).flatten).map toIntD).takeWhile
    fun x => x != 0

/-! ## Helper lemmas about the token loop -/

theorem parseVTokens_append_zero (pre : List (List Char)) :
    ∀ (acc : List Int) (t0 : List Char) (post : List (List Char)),
    allNonzeroInts pre = true → parseI32 t0 = some 0 →
    parseVTokens (pre ++ t0 :: post) acc = .assignment (acc ++ pre.map toIntD) := by
  induction pre with
  | nil =>
    intro acc t0 post _ h0
    simp [parseVTokens, h0]
  | cons t ts ih =>
    intro acc t0 post hall h0
    rw [allNonzeroInts, List.all_cons, Bool.and_eq_true] at hall
    obtain ⟨ht, hts⟩ := hall
    cases hp : parseI32 t with
    | none => rw [nzInt, hp] at ht; simp at ht
    | some x =>
      rw [nzInt, hp] at ht
      have hx : x ≠ 0 := by simpa using ht
      rw [List.cons_append, parseVTokens, hp]
      simp only [hx, if_false, ite_false]
      rw [ih _ _ _ hts h0]
      simp [toIntD, hp]

theorem parseVTokens_all (toks : List (List Char)) :
    ∀ acc : List Int, allNonzeroInts toks = true →
    parseVTokens toks acc = .assignment (acc ++ toks.map toIntD) := by
  induction toks with
  | nil => intro acc _; simp [parseVTokens]
  | cons t ts ih =>
    intro acc hall
    rw [allNonzeroInts, List.all_cons, Bool.and_eq_true] at hall
    obtain ⟨ht, hts⟩ := hall
    cases hp : parseI32 t with
    | none => rw [nzInt, hp] at ht; simp at ht
    | some x =>
      rw [nzInt, hp] at ht
      have hx : x ≠ 0 := by simpa using ht
      rw [parseVTokens, hp]
      simp only [hx, if_false, ite_false]
      rw [ih _ hts]
      simp [toIntD, hp]

theorem parseVTokens_firstBad (pre : List (List Char)) :
    ∀ (acc : List Int) (b : List Char) (post : List (List Char)),
    allNonzeroInts pre = true → parseI32 b = none →
    parseVTokens (pre ++ b :: post) acc = .parsePanic b := by
  induction pre with
  | nil =>
    intro acc b post _ hb
    simp [parseVTokens, hb]
  | cons t ts ih =>
    intro acc b post hall hb
    rw [allNonzeroInts, List.all_cons, Bool.and_eq_true] at hall
    obtain ⟨ht, hts⟩ := hall
    cases hp : parseI32 t with
    | none => rw [nzInt, hp] at ht; simp at ht
    | some x =>
      rw [nzInt, hp] at ht
      have hx : x ≠ 0 := by simpa using ht
      rw [List.cons_append, parseVTokens, hp]
      simp only [hx, if_false, ite_false]
      exact ih _ _ _ hts hb

theorem parseVTokens_goodTokens (toks : List (List Char)) :
    ∀ acc : List Int, goodTokens toks = true →
    parseVTokens toks acc =
      .assignment (acc ++ (toks.map toIntD).takeWhile fun x => x != 0) := by
  induction toks with
  | nil => intro acc _; simp [parseVTokens]
  | cons t ts ih =>
    intro acc hg
    cases hp : parseI32 t with
    | none => rw [goodTokens, hp] at hg; simp at hg
    | some x =>
      by_cases hx : x = 0
      · subst hx
        rw [parseVTokens, hp]
        simp [toIntD, hp]
      · rw [goodTokens, hp] at hg
        simp only [hx, if_false, ite_false] at hg
        rw [parseVTokens, hp]
        simp only [hx, if_false, ite_false]
        rw [ih _ hg]
        simp [toIntD, hp, hx]

/-! ## Helper lemmas about the line loop -/

theorem skip_comment (l : List Char) (rest : List (List Char)) (asg : Option (List Char))
    (h : l.head? = some 'c') :
    readAssignment (l :: rest) asg = readAssignment rest asg := by
  cases l with
  | nil => simp at h
  | cons a as =>
    simp at h
    subst h
    rfl

theorem skip_sSat (t : List Char) (rest : List (List Char)) (asg : Option (List Char)) :
    readAssignment ((strL "s SATISFIABLE" ++ t) :: rest) asg = readAssignment rest asg := rfl

theorem eval_sUnsat (t : List Char) (rest : List (List Char)) (asg : Option (List Char)) :
    readAssignment ((strL "s UNSATISFIABLE" ++ t) :: rest) asg = .unsatClaimed := rfl

theorem exists_append_of_leadsWith :
    ∀ pat l : List Char, leadsWith pat l = true → ∃ t, l = pat ++ t := by
  intro pat
  induction pat with
  | nil => exact fun l _ => ⟨l, rfl⟩
  | cons a as ih =>
    intro l h
    cases l with
    | nil => simp [leadsWith] at h
    | cons b bs =>
      rw [leadsWith, Bool.and_eq_true, beq_iff_eq] at h
      obtain ⟨rfl, h2⟩ := h
      obtain ⟨t, ht⟩ := ih bs h2
      exact ⟨t, by rw [ht, List.cons_append]⟩

theorem skip_skippable (pre rest : List (List Char)) (asg : Option (List Char))
    (h : ∀ x ∈ pre, x.head? = some 'c' ∨ leadsWith (strL "s SATISFIABLE") x = true) :
    readAssignment (pre ++ rest) asg = readAssignment rest asg := by
  induction pre with
  | nil => rfl
  | cons l ls ih =>
    have hl := h l (by simp)
    have hrest : ∀ x ∈ ls, x.head? = some 'c' ∨ leadsWith (strL "s SATISFIABLE") x = true :=
      fun x hx => h x (by simp [hx])
    rcases hl with hc | hs
    · rw [List.cons_append, skip_comment l _ asg hc, ih hrest]
    · obtain ⟨t, ht⟩ := exists_append_of_leadsWith _ _ hs
      rw [List.cons_append, ht, skip_sSat, ih hrest]

theorem readAssignment_vline (stripped : List Char) (rest : List (List Char))
    (asg : Option (List Char)) :
    readAssignment (('v' :: ' ' :: stripped) :: rest) asg =
      parseVTokens (splitWS stripped) [] := rfl

/-! ## Claim theorems: the parser -/

/-- C6: on a `v `-line, `read_assignment` scans whitespace-separated tokens
left to right; every integer token other than `0` is appended to the result
vector in order, and the first token equal to `0` ends the assignment — the
accumulated vector is returned.  First conjunct: a `0` token is present and
everything before it is a nonzero integer.  Second conjunct: no `0` token at
all — every token is appended and the vector is returned at end of line. -/
theorem c6_vline_scan :
    (∀ (stripped : List Char) (rest : List (List Char)) (asg : Option (List Char))
        (pre : List (List Char)) (t0 : List Char) (post : List (List Char)),
        splitWS stripped = pre ++ t0 :: post → allNonzeroInts pre = true →
        parseI32 t0 = some 0 →
        readAssignment (('v' :: ' ' :: stripped) :: rest) asg =
          .assignment (pre.map toIntD)) ∧
    (∀ (stripped : List Char) (rest : List (List Char)) (asg : Option (List Char)),
        allNonzeroInts (splitWS stripped) = true →
        readAssignment (('v' :: ' ' :: stripped) :: rest) asg =
          .assignment ((splitWS stripped).map toIntD)) := by
  constructor
  · intro stripped rest asg pre t0 post hsplit hpre h0
    rw [readAssignment_vline, hsplit, parseVTokens_append_zero pre [] t0 post hpre h0]
    simp
  · intro stripped rest asg hall
    rw [readAssignment_vline, parseVTokens_all _ [] hall]
    simp

theorem c6_witness :
    readAssignment [strL "v 1 -2 0 junk"] (some (strL "ans")) = .assignment [1, -2] ∧
    readAssignment [strL "v 3 4"] (some (strL "ans")) = .assignment [3, 4] := by
  constructor
  · exact (c6_vline_scan.1 (strL "1 -2 0 junk") [] (some (strL "ans"))
      [strL "1", strL "-2"] (strL "0") [strL "junk"]
      (by decide) (by decide) (by decide)).trans (by decide)
  · exact (c6_vline_scan.2 (strL "3 4") [] (some (strL "ans"))
      (by decide)).trans (by decide)

/-- C7: a `v `-line whose tokens contain a non-integer token preceded only by
nonzero integer tokens (in particular, preceding any `0` token) makes
`read_assignment` panic, with the offending token in the diagnostic
(the `parsePanic` payload models `panic!("{} by {}", e, s)`), instead of
returning a literal vector. -/
theorem c7_bad_token_panics (stripped : List Char) (rest : List (List Char))
    (asg : Option (List Char)) (pre : List (List Char)) (b : List Char)
    (post : List (List Char)) (hsplit : splitWS stripped = pre ++ b :: post)
    (hpre : allNonzeroInts pre = true) (hb : parseI32 b = none) :
    readAssignment (('v' :: ' ' :: stripped) :: rest) asg = .parsePanic b ∧
    ∀ v : List Int, readAssignment (('v' :: ' ' :: stripped) :: rest) asg ≠ .assignment v := by
  have h : readAssignment (('v' :: ' ' :: stripped) :: rest) asg = .parsePanic b := by
    rw [readAssignment_vline, hsplit, parseVTokens_firstBad pre [] b post hpre hb]
  exact ⟨h, fun v hc => by rw [h] at hc; cases hc⟩

theorem c7_witness :
    readAssignment [strL "v 1 x 0"] (some (strL "ans")) = .parsePanic (strL "x") ∧
    readAssignment [strL "v 1 x 0"] (some (strL "ans")) ≠ .assignment [1] := by
  obtain ⟨h, hne⟩ := c7_bad_token_panics (strL "1 x 0") [] (some (strL "ans"))
    [strL "1"] (strL "x") [strL "0"] (by decide) (by decide) (by decide)
  exact ⟨h, hne [1]⟩

/-- C8: tokens positioned after the first `0` token of a `v `-line are never
parsed: with nonzero integer tokens `pre` before a `0` token, the result is
the integers of `pre` whatever follows the `0` — the result is identical for
any trailing token lists `post` and `post'` (even unparsable ones), and the
parse-failure branch is never taken. -/
theorem c8_after_zero_unread (pre : List (List Char)) (t0 : List Char)
    (post post' : List (List Char)) (hpre : allNonzeroInts pre = true)
    (h0 : parseI32 t0 = some 0) :
    parseVTokens (pre ++ t0 :: post) [] = .assignment (pre.map toIntD) ∧
    parseVTokens (pre ++ t0 :: post) [] = parseVTokens (pre ++ t0 :: post') [] ∧
    ∀ t : List Char, parseVTokens (pre ++ t0 :: post) [] ≠ .parsePanic t := by
  have e := parseVTokens_append_zero pre [] t0 post hpre h0
  have e' := parseVTokens_append_zero pre [] t0 post' hpre h0
  simp only [List.nil_append] at e e'
  refine ⟨e, e.trans e'.symm, fun t hc => ?_⟩
  rw [e] at hc
  cases hc

theorem c8_witness :
    parseVTokens [strL "1", strL "0", strL "xy"] [] = .assignment [1] ∧
    parseVTokens [strL "1", strL "0", strL "xy"] [] = parseVTokens [strL "1", strL "0"] [] ∧
    parseVTokens [strL "1", strL "0", strL "xy"] [] ≠ .parsePanic (strL "xy") := by
  obtain ⟨a, b, c⟩ := c8_after_zero_unread [strL "1"] (strL "0") [strL "xy"] []
    (by decide) (by decide)
  exact ⟨a.trans (by decide), b, c (strL "xy")⟩

/-- C9: comment detection is by single first character `c`, with no
following-space requirement: any line whose first character is `c` is
skipped, whatever its remaining content. -/
theorem c9_comment_single_char (l : List Char) (rest : List (List Char))
    (asg : Option (List Char)) (h : l.head? = some 'c') :
    readAssignment (l :: rest) asg = readAssignment rest asg :=
  skip_comment l rest asg h

theorem c9_witness :
    (strL "continue").head? = some 'c' ∧
    readAssignment [strL "continue", strL "v 1 0"] (some (strL "ans")) =
      readAssignment [strL "v 1 0"] (some (strL "ans")) :=
  ⟨by decide, c9_comment_single_char (strL "continue") [strL "v 1 0"]
    (some (strL "ans")) (by decide)⟩

/-- C10: a line that does not begin with `c`, with `s ` or with `v ` —
including a line consisting of a bare newline — makes `read_assignment`
panic with the "Failed to parse here" diagnostic carrying the line, rather
than being skipped or producing a typed result. -/
theorem c10_other_lines_panic (l : List Char) (rest : List (List Char))
    (asg : Option (List Char)) (hc : l.head? ≠ some 'c')
    (hs : leadsWith (strL "s ") l = false) (hv : leadsWith (strL "v ") l = false) :
    readAssignment (l :: rest) asg = .linePanic l := by
  simp [readAssignment, hc, hs, vLineStep, stripLead, hv]

theorem c10_witness :
    readAssignment [strL "\n"] (some (strL "ans")) = .linePanic (strL "\n") :=
  c10_other_lines_panic (strL "\n") [] (some (strL "ans"))
    (by decide) (by decide) (by decide)

/-- C1 counterexample: on the stream `c a` / `v 1` / `v 2 0` — an
interleaving of `c`-lines among `v`-lines — `read_assignment` returns `[1]`
(it returns at the end of the first `v`-line), while the claim's "all
non-zero tokens on `v`-lines up to the first `0`" is `[1, 2]`. -/
theorem c1_counterexample :
    readAssignment [strL "c a", strL "v 1", strL "v 2 0"] (some (strL "ans")) =
      .assignment [1] ∧
    claimedLiterals [strL "c a", strL "v 1", strL "v 2 0"] = [1, 2] ∧
    RAResult.assignment [1] ≠
      .assignment (claimedLiterals [strL "c a", strL "v 1", strL "v 2 0"]) := by
  decide

/-- C1 amended: for any interleaving of `c`-comment lines before a `v`-line,
the literal vector returned by `read_assignment` equals the sequence of
non-zero integer tokens of the *first* `v`-line up to the first `0` token on
that line; later lines of the stream are not read. -/
theorem c1_first_vline (pre : List (List Char)) (stripped : List Char)
    (rest : List (List Char)) (asg : Option (List Char))
    (hpre : ∀ l ∈ pre, l.head? = some 'c')
    (hgood : goodTokens (splitWS stripped) = true) :
    readAssignment (pre ++ ('v' :: ' ' :: stripped) :: rest) asg =
      .assignment (((splitWS stripped).map toIntD).takeWhile fun x => x != 0) := by
  rw [skip_skippable pre _ asg (fun x hx => Or.inl (hpre x hx)), readAssignment_vline,
    parseVTokens_goodTokens _ [] hgood]
  simp

theorem c1_witness :
    readAssignment [strL "c x", strL "v 5 -2 0", strL "v 9 0"] (some (strL "ans")) =
      .assignment [5, -2] := by
  have h := c1_first_vline [strL "c x"] (strL "5 -2 0") [strL "v 9 0"]
    (some (strL "ans")) (by decide) (by decide)
  exact h.trans (by decide)

/-- C4 counterexample: the stream `s STRANGE` / `s UNSATISFIABLE 0` contains
a line beginning with `s UNSATISFIABLE` before any `v`-line, yet the parser
terminates with the illegal-format signal (printing the illegal-format
message), not with `UnsatClaimed`. -/
theorem c4_counterexample :
    readAssignment [strL "s STRANGE", strL "s UNSATISFIABLE 0"] (some (strL "ans")) =
      .illegalFormat ∧
    leadsWith (strL "s UNSATISFIABLE") (strL "s UNSATISFIABLE 0") = true ∧
    stripLead (strL "v ") (strL "s STRANGE") = none ∧
    RAResult.illegalFormat ≠ .unsatClaimed := by
  decide

/-- C4 amended: for every assignment stream containing a line beginning with
`s UNSATISFIABLE`, all of whose earlier lines the parser skips (comment lines
and `s SATISFIABLE` lines), the parser terminates with `UnsatClaimed`; the
driver prints "<problem> seems an unsatisfiable problem. I can't handle it."
and exits without calling `inject_assignment` or `validate`, whether the
stream came from the assignment file or from standard input. -/
theorem c4_unsat_claimed (pre : List (List Char)) (l : List Char)
    (rest ss : List (List Char)) (noColor : Bool) (p apath : List Char)
    (P : Problem) (dbg : Clause → List Char)
    (hpre : ∀ x ∈ pre, x.head? = some 'c' ∨ leadsWith (strL "s SATISFIABLE") x = true)
    (hl : leadsWith (strL "s UNSATISFIABLE") l = true) :
    readAssignment (pre ++ l :: rest) (some apath) = .unsatClaimed ∧
    mainModel noColor p apath P dbg (some (pre ++ l :: rest)) ss =
      { output := [unsatClaimedMsg p], injectCalled := false,
        validateCalled := false, panicked := false } ∧
    mainModel noColor p apath P dbg none (pre ++ l :: rest) =
      { output := [unsatClaimedMsg p], injectCalled := false,
        validateCalled := false, panicked := false } := by
  obtain ⟨t, ht⟩ := exists_append_of_leadsWith _ _ hl
  have h1 : readAssignment (pre ++ l :: rest) (some apath) = .unsatClaimed := by
    rw [skip_skippable pre _ _ hpre, ht, eval_sUnsat]
  exact ⟨h1, by simp [mainModel, handleStream, h1], by simp [mainModel, handleStream, h1]⟩

theorem c4_witness :
    readAssignment [strL "c x", strL "s UNSATISFIABLE"] (some (strL "ans")) =
      .unsatClaimed ∧
    mainModel false (strL "a.cnf") (strL "ans") [] (fun _ => [])
        (some [strL "c x", strL "s UNSATISFIABLE"]) [] =
      { output := [unsatClaimedMsg (strL "a.cnf")], injectCalled := false,
        validateCalled := false, panicked := false } ∧
    mainModel false (strL "a.cnf") (strL "ans") [] (fun _ => [])
        none [strL "c x", strL "s UNSATISFIABLE"] =
      { output := [unsatClaimedMsg (strL "a.cnf")], injectCalled := false,
        validateCalled := false, panicked := false } :=
  c4_unsat_claimed [strL "c x"] (strL "s UNSATISFIABLE") [] [] false
    (strL "a.cnf") (strL "ans") [] (fun _ => []) (by decide) (by decide)

/-- C5: whenever `inject_assignment` on the loaded problem rejects the parsed
literals, the driver prints exactly the
"<problem> seems an unsat problem but no proof." message and returns without
calling `validate`; identically whether the assignment stream came from a
file or from standard input. -/
theorem c5_conflict_no_proof (noColor : Bool) (p apath : List Char) (P : Problem)
    (dbg : Clause → List Char) (ls ss : List (List Char)) (vec : List Int)
    (hparse : readAssignment ls (some apath) = .assignment vec)
    (hinj : injectAssignment P vec = true) :
    mainModel noColor p apath P dbg (some ls) ss =
      { output := [noProofMsg noColor p], injectCalled := true,
        validateCalled := false, panicked := false } ∧
    mainModel noColor p apath P dbg none ls =
      { output := [noProofMsg noColor p], injectCalled := true,
        validateCalled := false, panicked := false } := by
  constructor <;> simp [mainModel, handleStream, hparse, hinj]

theorem c5_witness :
    mainModel false (strL "a.cnf") (strL "ans") [[1], [-1]] (fun _ => [])
        (some [strL "v 1 0"]) [] =
      { output := [noProofMsg false (strL "a.cnf")], injectCalled := true,
        validateCalled := false, panicked := false } ∧
    mainModel false (strL "a.cnf") (strL "ans") [[1], [-1]] (fun _ => [])
        none [strL "v 1 0"] =
      { output := [noProofMsg false (strL "a.cnf")], injectCalled := true,
        validateCalled := false, panicked := false } :=
  c5_conflict_no_proof false (strL "a.cnf") (strL "ans") [[1], [-1]] (fun _ => [])
    [strL "v 1 0"] [] [1] (by decide) (by decide)

/-! ## Helper lemmas for the driver's output -/

theorem unitFalsified_nil (c : Clause) : unitFalsified [] c = false := by
  rcases c with _ | ⟨l, _ | ⟨m, ms⟩⟩ <;> rfl

theorem inject_nil (P : Problem) : injectAssignment P [] = false := by
  simp [injectAssignment, List.any_eq_false, unitFalsified_nil]

theorem ne_noAssign_of_long_suffix (a s : List Char)
    (hs : noAssignMsg.length < s.length) : a ++ s ≠ noAssignMsg := by
  intro h
  have hlen := congrArg List.length h
  rw [List.length_append] at hlen
  omega

theorem noProof_head (nc : Bool) (p : List Char) :
    (noProofMsg nc p).head? = some '\x1B' := by
  cases nc <;> rfl

theorem verdict_head (nc : Bool) (p apath : List Char) (dbg : Clause → List Char)
    (ff : Bool) (r : Option Clause) :
    (renderVerdict nc p apath dbg ff r).head? = some '\x1B' := by
  cases r <;> cases ff <;> cases nc <;> rfl

theorem ne_noAssign_of_head (m : List Char) (h : m.head? = some '\x1B') :
    m ≠ noAssignMsg := by
  intro he
  rw [he] at h
  exact (by decide : ¬ (noAssignMsg.head? = some '\x1B')) h

theorem noAssign_not_in_handleStream (nc : Bool) (p apath : List Char) (P : Problem)
    (dbg : Clause → List Char) (ff : Bool) (r : RAResult) :
    noAssignMsg ∉ (handleStream nc p apath P dbg ff r).output := by
  cases r with
  | assignment vec =>
    by_cases hi : injectAssignment P vec = true
    · simp [handleStream, hi]
      exact fun h => ne_noAssign_of_head _ (noProof_head nc p) h.symm
    · rw [Bool.not_eq_true] at hi
      simp [handleStream, hi, mainTail]
      exact fun h => ne_noAssign_of_head _ (verdict_head nc p apath dbg ff _) h.symm
  | unsatClaimed =>
    simp [handleStream, unsatClaimedMsg]
    exact fun h => ne_noAssign_of_long_suffix p _ (by decide) h.symm
  | illegalFormat =>
    simp [handleStream, illegalFormatMsg]
    exact fun h => ne_noAssign_of_long_suffix apath _ (by decide) h.symm
  | parsePanic t => simp [handleStream]
  | linePanic l => simp [handleStream]

/-- C2: contrary to the claim, the "There's no assign file." message is dead
code: on no input whatsoever does the driver print it (first conjunct, over
every source configuration), and when standard input ends without any
`v`-line — `read_assignment` returns the empty vector — the driver binds the
empty assignment and does call `validate`, producing a verdict (second and
third conjuncts). -/
theorem c2_no_assign_unreachable (noColor : Bool) (p apath : List Char)
    (P : Problem) (dbg : Clause → List Char) (fs : Option (List (List Char)))
    (ss : List (List Char)) :
    noAssignMsg ∉ (mainModel noColor p apath P dbg fs ss).output ∧
    (mainModel noColor p apath P dbg none []).injectCalled = true ∧
    (mainModel noColor p apath P dbg none []).validateCalled = true := by
  refine ⟨?_, ?_, ?_⟩
  · cases fs with
    | some ls => exact noAssign_not_in_handleStream noColor p apath P dbg true _
    | none => exact noAssign_not_in_handleStream noColor p apath P dbg false _
  · have h0 : readAssignment ([] : List (List Char)) (some apath) = .assignment [] := rfl
    simp [mainModel, handleStream, h0, inject_nil, mainTail]
  · have h0 : readAssignment ([] : List (List Char)) (some apath) = .assignment [] := rfl
    simp [mainModel, handleStream, h0, inject_nil, mainTail]

/-! ## Helper lemmas for SGR neutrality -/

theorem onlyResetSGR_append_of_not_esc (a b : List Char) (h : '\x1B' ∉ a) :
    onlyResetSGR (a ++ b) = onlyResetSGR b := by
  induction a with
  | nil => rfl
  | cons c cs ih =>
    rw [List.mem_cons, not_or] at h
    have hb : (c == '\x1B') = false := by
      rw [beq_eq_false_iff_ne]
      exact fun e => h.1 e.symm
    rw [List.cons_append, onlyResetSGR, hb]
    simp only [Bool.false_eq_true, if_false, ite_false]
    exact ih h.2

theorem onlyResetSGR_of_not_esc (a : List Char) (h : '\x1B' ∉ a) :
    onlyResetSGR a = true := by
  have := onlyResetSGR_append_of_not_esc a [] h
  simpa using this

theorem onlyResetSGR_reset (b : List Char) :
    onlyResetSGR (RESET ++ b) = onlyResetSGR b := rfl

/-- C3 counterexample: with `--no-color` set, the valid-from-stdin verdict
printed by the driver still contains an ANSI SGR escape sequence (the
`RESET` sequence `ESC [ 0 0 0 m` is substituted for the colors and is also
appended unconditionally). -/
theorem c3_counterexample :
    (mainModel true (strL "a.cnf") (strL "ans") [[1]] (fun _ => []) none
        [strL "v 1 0"]).output = [validStdinMsg true (strL "a.cnf")] ∧
    containsSGR (validStdinMsg true (strL "a.cnf")) = true := by
  decide

/-- C3 amended: with `--no-color`, every ANSI escape in every string the
program prints to standard output is the neutral reset sequence
`\x1B[000m`; no color-setting SGR sequence (bold, red, green, blue) appears.
Stated for each of the seven output templates, for problem path, assignment
path and clause rendering free of the escape byte. -/
theorem c3_only_reset_sequences (p apath cdbg : List Char)
    (hp : '\x1B' ∉ p) (hpa : '\x1B' ∉ apath) (hc : '\x1B' ∉ cdbg) :
    onlyResetSGR (noProofMsg true p) = true ∧
    onlyResetSGR (validFileMsg true p apath) = true ∧
    onlyResetSGR (validStdinMsg true p) = true ∧
    onlyResetSGR (invalidMsg true p cdbg) = true ∧
    onlyResetSGR (unsatClaimedMsg p) = true ∧
    onlyResetSGR (illegalFormatMsg apath) = true ∧
    onlyResetSGR noAssignMsg = true := by
  refine ⟨?_, ?_, ?_, ?_, ?_, ?_, by decide⟩
  · show onlyResetSGR
      (RESET ++ p ++ strL " seems an unsat problem but no proof." ++ RESET) = true
    rw [List.append_assoc, List.append_assoc, onlyResetSGR_reset,
      onlyResetSGR_append_of_not_esc p _ hp,
      onlyResetSGR_append_of_not_esc _ _ (by decide)]
    decide
  · show onlyResetSGR
      (RESET ++ strL "A valid assignment set for " ++ p ++ RESET ++
        strL " is found in " ++ apath) = true
    rw [List.append_assoc, List.append_assoc, List.append_assoc, List.append_assoc,
      onlyResetSGR_reset, onlyResetSGR_append_of_not_esc _ _ (by decide),
      onlyResetSGR_append_of_not_esc p _ hp, onlyResetSGR_reset,
      onlyResetSGR_append_of_not_esc _ _ (by decide)]
    exact onlyResetSGR_of_not_esc apath hpa
  · show onlyResetSGR
      (RESET ++ strL "A valid assignment set for " ++ p ++ strL "." ++ RESET) = true
    rw [List.append_assoc, List.append_assoc, List.append_assoc,
      onlyResetSGR_reset, onlyResetSGR_append_of_not_esc _ _ (by decide),
      onlyResetSGR_append_of_not_esc p _ hp,
      onlyResetSGR_append_of_not_esc _ _ (by decide)]
    decide
  · show onlyResetSGR
      (RESET ++ strL "An invalid assignment set for " ++ p ++ RESET ++
        strL " due to " ++ cdbg ++ strL ".") = true
    rw [List.append_assoc, List.append_assoc, List.append_assoc, List.append_assoc,
      List.append_assoc, onlyResetSGR_reset,
      onlyResetSGR_append_of_not_esc _ _ (by decide),
      onlyResetSGR_append_of_not_esc p _ hp, onlyResetSGR_reset,
      onlyResetSGR_append_of_not_esc _ _ (by decide),
      onlyResetSGR_append_of_not_esc cdbg _ hc]
    decide
  · show onlyResetSGR
      (p ++ strL " seems an unsatisfiable problem. I can\x27t handle it.") = true
    rw [onlyResetSGR_append_of_not_esc p _ hp]
    decide
  · show onlyResetSGR (apath ++ strL " seems an illegal format file.") = true
    rw [onlyResetSGR_append_of_not_esc apath _ hpa]
    decide

theorem c3_witness :
    onlyResetSGR (noProofMsg true (strL "a.cnf")) = true ∧
    onlyResetSGR (validFileMsg true (strL "a.cnf") (strL "ans_a.cnf")) = true ∧
    onlyResetSGR (validStdinMsg true (strL "a.cnf")) = true ∧
    onlyResetSGR (invalidMsg true (strL "a.cnf") (strL "[1, -2]")) = true ∧
    onlyResetSGR (unsatClaimedMsg (strL "a.cnf")) = true ∧
    onlyResetSGR (illegalFormatMsg (strL "ans_a.cnf")) = true ∧
    onlyResetSGR noAssignMsg = true :=
  c3_only_reset_sequences (strL "a.cnf") (strL "ans_a.cnf") (strL "[1, -2]")
    (by decide) (by decide) (by decide)

end Dmcr
